import Mathlib

/-!
Shallow embedding of the Whisper end-to-end encrypted messenger
(src/js/crypto.js, src/js/app.js, src/js/email.js, src/js/storage.js).

Repository functions are translated from the source.  Browser platform
primitives (the Web Crypto API, btoa/atob, TextEncoder/TextDecoder,
JSON.parse) are not part of the repository; they are modelled as idealized
executable functions, each documented at its definition.
-/

namespace Whisper

/-- Model of window.crypto.getRandomValues: the cryptographic random source is
an entropy stream of bytes together with a read position; each call consumes
the next bytes of the stream and advances the position. -/
structure RandomSource where
  stream : Nat → Nat
  pos : Nat

def getRandomValues (n : Nat) (r : RandomSource) : List Nat × RandomSource :=
  ((List.range n).map (fun i => r.stream (r.pos + i) % 256), ⟨r.stream, r.pos + n⟩)

/-- Model of the btoa / atob base64 codec.  The codec is a bijection between
payloads and their base64 text images, so a base64 text is represented by its
decoded payload. -/
structure B64 (α : Type) where
  data : α
deriving DecidableEq

/-- Model of TextEncoder.encode.  The source only relies on the encoding being
injective with TextDecoder.decode as left inverse; it is modelled by the
scalar values of the characters. -/
def textEncoderEncode (s : String) : List Nat := s.data.map Char.toNat

/-- Model of TextDecoder.decode, the left inverse of textEncoderEncode. -/
def textDecoderDecode (l : List Nat) : String := String.mk (l.map Char.ofNat)

/-- An AES-GCM key as handled by generateAESKey / exportAESKey / importAESKey;
exportKey with format raw exposes the raw key bytes. -/
structure AESKey where
  raw : List Nat
deriving DecidableEq

/-- Keystream of the idealized AES-GCM model cipher (confidentiality layer);
any key- and nonce-dependent stream works for the model. -/
def keystream (k : AESKey) (iv : List Nat) (i : Nat) : Nat :=
  (k.raw.getD (i % 32) 0) ^^^ (iv.getD (i % 12) 0) ^^^ i

/-- XOR a byte list against a keystream starting at stream index i. -/
def maskFrom (ks : Nat → Nat) : Nat → List Nat → List Nat
  | _, [] => []
  | i, b :: rest => (b ^^^ ks i) :: maskFrom ks (i + 1) rest

/-- Authentication tag of the idealized AEAD: a perfect MAC binding key, nonce
and ciphertext body (the standard unforgeability idealization of the AES-GCM
tag). -/
structure GCMTag where
  key : List Nat
  iv : List Nat
  body : List Nat
deriving DecidableEq

/-- An AES-GCM ciphertext: encrypted body with the authentication tag
attached, as produced by subtle.encrypt. -/
structure GCMCipher where
  body : List Nat
  tag : GCMTag
deriving DecidableEq

/-- Model of subtle.encrypt with AES-GCM. -/
def aesGcmEncrypt (k : AESKey) (iv data : List Nat) : GCMCipher :=
  let body := maskFrom (keystream k iv) 0 data
  ⟨body, ⟨k.raw, iv, body⟩⟩

/-- Model of subtle.decrypt with AES-GCM: the tag is verified before any
plaintext is produced; on mismatch the call fails atomically. -/
def aesGcmDecrypt (k : AESKey) (iv : List Nat) (c : GCMCipher) : Option (List Nat) :=
  if c.tag = (⟨k.raw, iv, c.body⟩ : GCMTag) then
    some (maskFrom (keystream k iv) 0 c.body)
  else
    none

/-- An RSA-OAEP public key, represented by its canonical SPKI export bytes
(exportKey with format spki). -/
structure RSAPublicKey where
  spki : List Nat
deriving DecidableEq

/-- An RSA-OAEP private key, carrying the SPKI bytes of its public half (the
pairing relation of the model). -/
structure RSAPrivateKey where
  spki : List Nat
deriving DecidableEq

/-- An RSA-OAEP key pair as produced by generateKeyPair; both halves expose
the same canonical SPKI bytes. -/
structure RSAKeyPair where
  spki : List Nat
deriving DecidableEq

def RSAKeyPair.publicKey (kp : RSAKeyPair) : RSAPublicKey := ⟨kp.spki⟩

def RSAKeyPair.privateKey (kp : RSAKeyPair) : RSAPrivateKey := ⟨kp.spki⟩

/-- An RSA-OAEP ciphertext of the idealized model: decryptable exactly under
the matching private key. -/
structure RSACipher where
  keyId : List Nat
  payload : List Nat
deriving DecidableEq

/-- Model of subtle.encrypt with RSA-OAEP. -/
def rsaOaepEncrypt (pk : RSAPublicKey) (data : List Nat) : RSACipher :=
  ⟨pk.spki, data⟩

/-- Model of subtle.decrypt with RSA-OAEP: succeeds exactly under the matching
private key; under any other key the OAEP integrity check fails. -/
def rsaOaepDecrypt (sk : RSAPrivateKey) (c : RSACipher) : Option (List Nat) :=
  if c.keyId = sk.spki then some c.payload else none

/-- Error taxonomy of the specification together with the JavaScript runtime
errors the source can raise.  The source throws generic Error objects; the
constructors name them after the roles the specification assigns.
typeError stands for the platform exceptions raised when a required object or
method is absent (null key, undefined field, missing method), referenceError
for the JavaScript ReferenceError raised by reading an undeclared
identifier. -/
inductive WhisperError where
  | keyFormatError
  | keyWrapError
  | decryptionError
  | exchangeIncompleteError
  | envelopeFormatError
  | unsupportedVersionError
  | typeError
  | referenceError
deriving DecidableEq

deriving instance DecidableEq for Except

namespace CryptoManager

/-- crypto.js arrayBufferToBase64 (via window.btoa). -/
def arrayBufferToBase64 {α : Type} (x : α) : B64 α := ⟨x⟩

/-- crypto.js base64ToArrayBuffer (via window.atob). -/
def base64ToArrayBuffer {α : Type} (b : B64 α) : α := b.data

/-- crypto.js exportAESKey: raw key bytes. -/
def exportAESKey (k : AESKey) : List Nat := k.raw

/-- crypto.js importAESKey: re-import raw key bytes. -/
def importAESKey (raw : List Nat) : AESKey := ⟨raw⟩

/-- crypto.js generateAESKey: a fresh random 256-bit AES-GCM key. -/
def generateAESKey (r : RandomSource) : AESKey × RandomSource :=
  let p := getRandomValues 32 r
  (⟨p.1⟩, p.2)

/-- crypto.js encryptAESKey: RSA-OAEP-encrypt the exported AES key bytes under
the peer public key, base64 the result. -/
def encryptAESKey (aesKey : AESKey) (publicKey : RSAPublicKey) : B64 RSACipher :=
  arrayBufferToBase64 (rsaOaepEncrypt publicKey (exportAESKey aesKey))

/-- crypto.js decryptAESKey: base64-decode, RSA-OAEP-decrypt under the local
private key, re-import the key bytes.  An integrity failure of the asymmetric
decryption is reported as the taxonomy DecryptionError. -/
def decryptAESKey (encryptedAESKey : B64 RSACipher) (privateKey : RSAPrivateKey) :
    Except WhisperError AESKey :=
  match rsaOaepDecrypt privateKey (base64ToArrayBuffer encryptedAESKey) with
  | some raw => .ok (importAESKey raw)
  | none => .error .decryptionError

/-- Result shape of crypto.js encryptMessage: base64 ciphertext and base64
IV. -/
structure EncryptedMessage where
  encrypted : B64 GCMCipher
  iv : B64 (List Nat)
deriving DecidableEq

/-- crypto.js encryptMessage: draw a fresh random 12-byte IV, encode the
content, AES-GCM-encrypt, base64 both outputs. -/
def encryptMessage (content : String) (aesKey : AESKey) (r : RandomSource) :
    EncryptedMessage × RandomSource :=
  let ivp := getRandomValues 12 r
  let data := textEncoderEncode content
  let c := aesGcmEncrypt aesKey ivp.1 data
  (⟨arrayBufferToBase64 c, arrayBufferToBase64 ivp.1⟩, ivp.2)

/-- crypto.js decryptMessage: base64-decode ciphertext and IV, AES-GCM-decrypt
(tag verified first), decode the plaintext bytes.  A tag failure is the
taxonomy DecryptionError. -/
def decryptMessage (encryptedData : B64 GCMCipher) (iv : B64 (List Nat)) (aesKey : AESKey) :
    Except WhisperError String :=
  match aesGcmDecrypt aesKey (base64ToArrayBuffer iv) (base64ToArrayBuffer encryptedData) with
  | some data => .ok (textDecoderDecode data)
  | none => .error .decryptionError

/-- One hex digit as produced by Number.prototype.toString(16): 0-9 then
lowercase a-f. -/
def hexDigitChar (n : Nat) : Char :=
  if n < 10 then Char.ofNat (48 + n) else Char.ofNat (87 + n)

/-- b.toString(16).padStart(2, ...) for a byte b: exactly two hex digits. -/
def byteToHex (b : Nat) : List Char := [hexDigitChar (b / 16), hexDigitChar (b % 16)]

/-- hashArray.map(toString(16).padStart(2)).join of crypto.js
generateKeyFingerprint. -/
def bytesToHex (bs : List Nat) : List Char := (bs.map byteToHex).flatten

/-- hashHex.match over groups of at most four characters, as the regex of
generateKeyFingerprint produces them. -/
def chunkFour : List Char → List (List Char)
  | [] => []
  | [a] => [[a]]
  | [a, b] => [[a, b]]
  | [a, b, c] => [[a, b, c]]
  | a :: b :: c :: d :: rest => [a, b, c, d] :: chunkFour rest

/-- Array.prototype.join with separator colon. -/
def joinColon : List (List Char) → List Char
  | [] => []
  | [g] => g
  | g :: g2 :: gs => g ++ ':' :: joinColon (g2 :: gs)

/-- crypto.js generateKeyFingerprint: digest the canonical SPKI export bytes,
hex-encode, group into blocks of four characters joined by colons.  The digest
parameter models subtle.digest with SHA-256 (a fixed 256-bit hash, external to
the repository). -/
def generateKeyFingerprint (digest : List Nat → List Nat) (publicKey : RSAPublicKey) :
    String :=
  String.mk (joinColon (chunkFour (bytesToHex (digest publicKey.spki))))

/-- Inverse of a hex digit, for reasoning about the fingerprint format. -/
def hexCharVal (c : Char) : Nat :=
  if c.toNat ≥ 97 then c.toNat - 87 else c.toNat - 48

/-- Inverse of bytesToHex, for reasoning about the fingerprint format. -/
def hexPairsToBytes : List Char → List Nat
  | a :: b :: rest => (16 * hexCharVal a + hexCharVal b) :: hexPairsToBytes rest
  | _ => []

end CryptoManager

/-- app.js configuration object (transport credentials and the two peer
addresses). -/
structure Config where
  myEmail : String
  peerEmail : String
  emailServiceId : String
  emailTemplateId : String
  emailUserId : String
deriving DecidableEq

/-- A record of the storage.js messages store, with exactly the fields
storage.js saveMessage writes (it drops the encryptedContent, fileName,
fileType and fileSize fields its callers pass). -/
structure StoredMessage where
  type : String
  content : Option String
  sender : String
  timestamp : String
  encryptedKey : Option (B64 RSACipher)
  iv : Option (B64 (List Nat))
  incoming : Bool
  read : Bool
  withdrawn : Bool
deriving DecidableEq

/-- The object app.js onMessageReceived hands to the registered UI callback. -/
structure CallbackEvent where
  type : String
  content : Option String
  fileName : Option String
  fileType : Option String
  fileSize : Option Nat
  sender : String
  timestamp : String
  incoming : Bool
deriving DecidableEq

/-- The parsed JSON envelope exchanged over the relay (also the messageData
argument of app.js onMessageReceived).  Absent JSON fields are none.  The type
field is the envelope kind written by email.js (message or public_key); app.js
onMessageReceived reads the same field as a content type. -/
structure MessageData where
  version : String
  type : Option String
  encrypted_key : Option (B64 RSACipher)
  encrypted_content : Option (B64 GCMCipher)
  iv : Option (B64 (List Nat))
  public_key : Option (B64 (List Nat))
  timestamp : String
  sender : String
  fileName : Option String
  fileType : Option String
  fileSize : Option Nat
deriving DecidableEq

/-- IndexedDB put on a store keyed by email (upsert). -/
def storePut {α : Type} : List (String × α) → String → α → List (String × α)
  | [], e, v => [(e, v)]
  | (k, w) :: rest, e, v =>
    if k = e then (e, v) :: rest else (k, w) :: storePut rest e v

/-- IndexedDB get on a store keyed by email. -/
def storeGet {α : Type} : List (String × α) → String → Option α
  | [], _ => none
  | (k, v) :: rest, e => if k = e then some v else storeGet rest e

/-- Combined state of the WhisperApp instance and its collaborators: the
CryptoManager key slots, the exchange flag, the storage.js stores, the
envelopes handed to the transport, and the UI callback invocations. -/
structure AppState where
  config : Config
  privateKey : Option RSAPrivateKey
  selfPublicKey : Option RSAPublicKey
  peerPublicKey : Option RSAPublicKey
  isExchangeComplete : Bool
  privateKeyStore : Option (B64 (List Nat))
  storedKeys : List (String × B64 (List Nat))
  messages : List StoredMessage
  sentEmails : List MessageData
  callbackEvents : List CallbackEvent
  rng : RandomSource

/-- Fresh-install state of the app: no identity, no peer key, empty stores,
exchange not complete. -/
def firstRunState (cfg : Config) (stream : Nat → Nat) : AppState :=
  { config := cfg, privateKey := none, selfPublicKey := none, peerPublicKey := none,
    isExchangeComplete := false, privateKeyStore := none, storedKeys := [],
    messages := [], sentEmails := [], callbackEvents := [], rng := ⟨stream, 0⟩ }

namespace EmailManager

/-- The JSON body email.js sendMessage writes: version 1.0, kind message, the
three base64 crypto fields, timestamp and sender.  Note it never includes the
file metadata its caller passes. -/
def messageEnvelope (encryptedKey : B64 RSACipher) (encryptedContent : B64 GCMCipher)
    (iv : B64 (List Nat)) (timestamp sender : String) : MessageData :=
  { version := "1.0", type := some "message", encrypted_key := some encryptedKey,
    encrypted_content := some encryptedContent, iv := some iv, public_key := none,
    timestamp := timestamp, sender := sender,
    fileName := none, fileType := none, fileSize := none }

/-- The JSON body email.js sendPublicKey writes. -/
def publicKeyEnvelope (publicKey : B64 (List Nat)) (timestamp sender : String) :
    MessageData :=
  { version := "1.0", type := some "public_key", encrypted_key := none,
    encrypted_content := none, iv := none, public_key := some publicKey,
    timestamp := timestamp, sender := sender,
    fileName := none, fileType := none, fileSize := none }

end EmailManager

namespace WhisperApp

/-- The record saved by app.js onMessageReceived for an incoming envelope,
after storage.js saveMessage has dropped the fields it does not store. -/
def incomingRecord (md : MessageData) (messageType : String) (content : Option String) :
    StoredMessage :=
  { type := messageType, content := content, sender := md.sender,
    timestamp := md.timestamp, encryptedKey := md.encrypted_key, iv := md.iv,
    incoming := true, read := false, withdrawn := false }

/-- The object app.js onMessageReceived passes to the UI callback. -/
def incomingEvent (md : MessageData) (messageType : String) (content : Option String) :
    CallbackEvent :=
  { type := messageType, content := content, fileName := md.fileName,
    fileType := md.fileType, fileSize := md.fileSize, sender := md.sender,
    timestamp := md.timestamp, incoming := true }

/-- Save the incoming record, invoke the UI callback, then execute the
return statement of app.js onMessageReceived.  That statement reads the
identifier decrypted, which is declared nowhere in the function, so the
success path raises a ReferenceError which the catch block rethrows. -/
def deliver (s : AppState) (md : MessageData) (messageType : String)
    (content : Option String) : AppState × Except WhisperError Unit :=
  ({ s with
      messages := s.messages ++ [incomingRecord md messageType content],
      callbackEvents := s.callbackEvents ++ [incomingEvent md messageType content] },
   .error .referenceError)

/-- app.js onMessageReceived: unwrap the AES key with the local private key,
then branch on messageData.type (defaulting to text): the text branch
decrypts the content, the image branch calls the method decryptFileToDataUrl
which does not exist on CryptoManager (a platform TypeError), every other
branch (file, and in particular the kind tag message that the wire actually
carries) leaves the content null; all non-throwing branches save the record,
invoke the callback, and end in the ReferenceError of the return statement.
Errors are caught and rethrown by the surrounding try/catch. -/
def onMessageReceived (s : AppState) (md : MessageData) :
    AppState × Except WhisperError Unit :=
  match s.privateKey with
  | none => (s, .error .typeError)
  | some priv =>
    match md.encrypted_key with
    | none => (s, .error .typeError)
    | some ek =>
      match CryptoManager.decryptAESKey ek priv with
      | .error e => (s, .error e)
      | .ok aesKey =>
        let messageType := md.type.getD "text"
        if messageType = "text" then
          match md.encrypted_content, md.iv with
          | some ec, some iv =>
            (match CryptoManager.decryptMessage ec iv aesKey with
             | .error e => (s, .error e)
             | .ok content => deliver s md messageType (some content))
          | _, _ => (s, .error .typeError)
        else if messageType = "image" then
          (s, .error .typeError)
        else
          deliver s md messageType none

/-- app.js sendMessage: refuse before the key exchange is complete (the
specification ExchangeIncompleteError), otherwise generate a fresh AES key,
encrypt the content, wrap the key under the peer public key, hand the envelope
to the transport and save the outgoing record (plaintext cached; storage.js
drops the ciphertext field). -/
def sendMessage (s : AppState) (content : String) (now : String) :
    AppState × Except WhisperError Unit :=
  if s.isExchangeComplete then
    let kp := CryptoManager.generateAESKey s.rng
    let aesKey := kp.1
    let encp := CryptoManager.encryptMessage content aesKey kp.2
    let enc := encp.1
    match s.peerPublicKey with
    | none => ({ s with rng := encp.2 }, .error .typeError)
    | some pk =>
      let encryptedKey := CryptoManager.encryptAESKey aesKey pk
      let env := EmailManager.messageEnvelope encryptedKey enc.encrypted enc.iv now
        s.config.myEmail
      let outRec : StoredMessage :=
        { type := "text", content := some content, sender := s.config.myEmail,
          timestamp := now, encryptedKey := some encryptedKey, iv := some enc.iv,
          incoming := false, read := false, withdrawn := false }
      ({ s with
          rng := encp.2,
          sentEmails := s.sentEmails ++ [env],
          messages := s.messages ++ [outRec] }, .ok ())
  else
    (s, .error .exchangeIncompleteError)

/-- app.js importPeerPublicKey: import the pasted key into the CryptoManager,
save it in storage under the peer address, and mark the exchange complete.
This is the only operation that sets isExchangeComplete from user input. -/
def importPeerPublicKey (s : AppState) (publicKeyBase64 : B64 (List Nat)) :
    AppState × Bool :=
  ({ s with
      peerPublicKey := some ⟨CryptoManager.base64ToArrayBuffer publicKeyBase64⟩,
      storedKeys := storePut s.storedKeys s.config.peerEmail publicKeyBase64,
      isExchangeComplete := true }, true)

/-- app.js sendPublicKey: export the own public key, hand the announcement
envelope to the transport, save the key in storage under the own address.
With no identity yet the export throws and the catch leaves the state
unchanged. -/
def sendPublicKey (s : AppState) (now : String) : AppState :=
  match s.selfPublicKey with
  | none => s
  | some pub =>
    let pkB64 := CryptoManager.arrayBufferToBase64 pub.spki
    { s with
        sentEmails := s.sentEmails ++
          [EmailManager.publicKeyEnvelope pkB64 now s.config.myEmail],
        storedKeys := storePut s.storedKeys s.config.myEmail pkB64 }

/-- app.js generateKeyPair: generate the RSA identity (consuming entropy),
persist the private key, then announce the public key via sendPublicKey. -/
def generateKeyPair (s : AppState) (now : String) : AppState :=
  let pr := getRandomValues 256 s.rng
  let s1 := { s with
      privateKey := some ⟨pr.1⟩, selfPublicKey := some ⟨pr.1⟩,
      privateKeyStore := some (CryptoManager.arrayBufferToBase64 pr.1),
      rng := pr.2 }
  sendPublicKey s1 now

/-- app.js initKeys: if storage holds a public key under the peer address,
then import it and mark the exchange complete; otherwise leave everything
unchanged. -/
def initKeys (s : AppState) : AppState :=
  match storeGet s.storedKeys s.config.peerEmail with
  | some pkB64 =>
    { s with
        peerPublicKey := some ⟨CryptoManager.base64ToArrayBuffer pkB64⟩,
        isExchangeComplete := true }
  | none => s

end WhisperApp

/-- A raw email body as fetched by the polling API: either text that
JSON.parse rejects, or a parsed envelope. -/
inductive RawEmail where
  | garbage
  | parsed (md : MessageData)
deriving DecidableEq

/-- Outcome of handling one raw email inside the polling loop of email.js
startPolling: the JSON parse failed, the envelope kind was not message and the
body was ignored, the handler returned normally, or the handler threw and the
per-message catch logged the error. -/
inductive PollOutcome where
  | parseError
  | skipped
  | handled
  | handlerError (e : WhisperError)
deriving DecidableEq

namespace EmailManager

/-- email.js receiveMessages: on a transport error the catch returns an empty
batch and the checkpoint is untouched; on a nonempty fetched batch the
lastChecked checkpoint is advanced to the current time immediately, before any
envelope of the batch is processed. -/
def receiveMessages (lastChecked : Option String)
    (response : Except Unit (List RawEmail)) (now : String) :
    Option String × List RawEmail :=
  match response with
  | .error _ => (lastChecked, [])
  | .ok [] => (lastChecked, [])
  | .ok (m :: rest) => (some now, m :: rest)

/-- The body of the polling loop of email.js startPolling for one raw email:
JSON.parse inside try/catch, forward only envelopes whose type field is
message to the onMessage handler (app.js onMessageReceived), catch and log any
error the handler throws. -/
def processRawEmail (s : AppState) (r : RawEmail) : AppState × PollOutcome :=
  match r with
  | .garbage => (s, .parseError)
  | .parsed md =>
    if md.type = some "message" then
      match WhisperApp.onMessageReceived s md with
      | (s', .ok _) => (s', .handled)
      | (s', .error e) => (s', .handlerError e)
    else
      (s, .skipped)

/-- The for-loop of email.js startPolling over a fetched batch: every raw
email is handled in order, each inside its own try/catch. -/
def processBatch (s : AppState) : List RawEmail → AppState × List PollOutcome
  | [] => (s, [])
  | r :: rest =>
    let p := processRawEmail s r
    let q := processBatch p.1 rest
    (q.1, p.2 :: q.2)

/-- One polling cycle: receiveMessages (which may advance the checkpoint),
then the loop over the batch. -/
def pollCycle (s : AppState) (lastChecked : Option String)
    (response : Except Unit (List RawEmail)) (now : String) :
    AppState × Option String × List PollOutcome :=
  let p := receiveMessages lastChecked response now
  let q := processBatch s p.2
  (q.1, p.1, q.2)

end EmailManager

/-- The user-level operations that drive the app state, with the timestamps
their runs observe. -/
inductive AppOp where
  | generateKeys (now : String)
  | sendPubKey (now : String)
  | doInitKeys
  | importPeer (pk : B64 (List Nat))
  | sendMsg (content : String) (now : String)
  | pollEnvelope (raw : RawEmail)

/-- Effect of one operation on the app state. -/
def appStep (s : AppState) : AppOp → AppState
  | .generateKeys now => WhisperApp.generateKeyPair s now
  | .sendPubKey now => WhisperApp.sendPublicKey s now
  | .doInitKeys => WhisperApp.initKeys s
  | .importPeer pk => (WhisperApp.importPeerPublicKey s pk).1
  | .sendMsg content now => (WhisperApp.sendMessage s content now).1
  | .pollEnvelope raw => (EmailManager.processRawEmail s raw).1

/-- Run a sequence of operations. -/
def runOps (s : AppState) : List AppOp → AppState
  | [] => s
  | op :: rest => runOps (appStep s op) rest

/-- Whether an operation is the explicit user-confirmed key import. -/
def isImportOp : AppOp → Bool
  | .importPeer _ => true
  | _ => false

/-- The first twelve bytes the random source yields from its current
position: the IV block crypto.js encryptMessage draws. -/
def ivBlock (r : RandomSource) : List Nat :=
  (List.range 12).map (fun i => r.stream (r.pos + i) % 256)

/-- Modelled from the spec (claim C4 as stated): calling receive on an
envelope whose symmetric ciphertext body was altered in one byte fails with
DecryptionError and persists nothing. -/
def receiveRejectsTampering : Prop :=
  ∀ (s : AppState) (md : MessageData) (k : AESKey) (ivb data : List Nat) (i b : Nat),
    md.encrypted_content = some (CryptoManager.arrayBufferToBase64
      (GCMCipher.mk ((aesGcmEncrypt k ivb data).body.set i b) (aesGcmEncrypt k ivb data).tag)) →
    (aesGcmEncrypt k ivb data).body.set i b ≠ (aesGcmEncrypt k ivb data).body →
    (WhisperApp.onMessageReceived s md).2 = .error .decryptionError ∧
    (WhisperApp.onMessageReceived s md).1.messages = s.messages

/-- Modelled from the spec (claim C7 as stated): an envelope declaring the
future version 2.0 is rejected with UnsupportedVersionError, with no other
processing of it. -/
def unknownVersionRejected : Prop :=
  ∀ (s : AppState) (md : MessageData),
    md.version = "2.0" →
    (EmailManager.processRawEmail s (.parsed md)).2 =
      .handlerError .unsupportedVersionError ∧
    (EmailManager.processRawEmail s (.parsed md)).1.messages = s.messages

/-- Modelled from the spec (claim C9 as stated): the polling checkpoint is
advanced only when no envelope of the fetched batch failed processing. -/
def checkpointOnlyAfterSuccess : Prop :=
  ∀ (s : AppState) (lastChecked : Option String) (raws : List RawEmail) (now : String),
    (PollOutcome.parseError ∈ (EmailManager.pollCycle s lastChecked (.ok raws) now).2.2 ∨
      ∃ e, PollOutcome.handlerError e ∈
        (EmailManager.pollCycle s lastChecked (.ok raws) now).2.2) →
    (EmailManager.pollCycle s lastChecked (.ok raws) now).2.1 = lastChecked

/-- Invariant for the trust analysis: the configuration is fixed, the exchange
is not complete, and storage holds no key under the peer address. -/
def NoTrust (cfg : Config) (s : AppState) : Prop :=
  s.config = cfg ∧ s.isExchangeComplete = false ∧
    storeGet s.storedKeys cfg.peerEmail = none

/-- A concrete all-zero entropy stream for concrete evaluations. -/
def zeroStream : Nat → Nat := fun _ => 0

/-- A concrete identity entropy stream for concrete evaluations. -/
def idStream : Nat → Nat := fun i => i

/-- A concrete configuration with two distinct peer addresses. -/
def cfgEx : Config := ⟨"alice@example.com", "bob@example.com", "svc", "tpl", "usr"⟩

/-- A concrete fresh-install state. -/
def sEx : AppState := firstRunState cfgEx zeroStream

/-- A concrete local private key. -/
def privEx : RSAPrivateKey := ⟨[9]⟩

/-- The concrete fresh-install state after loading the private key privEx. -/
def sKeyEx : AppState := { sEx with privateKey := some privEx }

/-- A concrete AES content key. -/
def kEx : AESKey := ⟨[1]⟩

/-- A concrete IV. -/
def ivEx : List Nat := [2]

/-- Concrete plaintext bytes (the encoding of the string hi). -/
def dataEx : List Nat := [104, 105]

/-- The concrete AES-GCM encryption of dataEx under kEx and ivEx. -/
def cEx : GCMCipher := aesGcmEncrypt kEx ivEx dataEx

/-- The concrete wrapped content key: kEx wrapped under the public half of
privEx. -/
def ekEx : B64 RSACipher := CryptoManager.encryptAESKey kEx ⟨[9]⟩

/-- cEx with the first ciphertext byte overwritten (a one-byte corruption). -/
def corruptEx : GCMCipher := ⟨cEx.body.set 0 0, cEx.tag⟩

/-- A concrete wire envelope exactly as email.js delivers it (kind tag
message) whose encrypted_content was corrupted in one byte. -/
def mdWireEx : MessageData :=
  { version := "1.0", type := some "message", encrypted_key := some ekEx,
    encrypted_content := some (CryptoManager.arrayBufferToBase64 corruptEx),
    iv := some (CryptoManager.arrayBufferToBase64 ivEx), public_key := none,
    timestamp := "t0", sender := "bob@example.com",
    fileName := none, fileType := none, fileSize := none }

/-- The corrupted envelope with no type field, so that onMessageReceived
takes its text branch. -/
def mdTextCorruptEx : MessageData := { mdWireEx with type := none }

/-- An uncorrupted envelope with no type field. -/
def mdTextOkEx : MessageData :=
  { mdWireEx with
      type := none,
      encrypted_content := some (CryptoManager.arrayBufferToBase64 cEx) }

/-- A concrete public-key announcement envelope. -/
def mdPkEx : MessageData :=
  EmailManager.publicKeyEnvelope (CryptoManager.arrayBufferToBase64 [5]) "t0"
    "bob@example.com"

/-- A concrete, well-formed message envelope that declares the future
protocol version 2.0. -/
def md20Ex : MessageData :=
  { mdWireEx with
      version := "2.0",
      encrypted_content := some (CryptoManager.arrayBufferToBase64 cEx) }

/-- A concrete import-free operation sequence. -/
def opsEx : List AppOp :=
  [.generateKeys "t0", .doInitKeys, .sendMsg "hello" "t1",
   .pollEnvelope (.parsed mdPkEx), .sendPubKey "t2", .pollEnvelope .garbage]

/-- A concrete random source over the identity stream. -/
def rEx : RandomSource := ⟨idStream, 0⟩

theorem maskFrom_maskFrom (ks : Nat → Nat) (i : Nat) (l : List Nat) :
    maskFrom ks i (maskFrom ks i l) = l := by
  induction l generalizing i with
  | nil => rfl
  | cons b rest ih =>
    simp [maskFrom, Nat.xor_assoc, Nat.xor_self, Nat.xor_zero, ih]

theorem textDecoderDecode_textEncoderEncode (s : String) :
    textDecoderDecode (textEncoderEncode s) = s := by
  unfold textDecoderDecode textEncoderEncode
  rw [List.map_map]
  simp [Function.comp_def, Char.ofNat_toNat]

/-- C2: decrypting the result of encrypting any plaintext under any valid
content key, with the IV produced by that encryption, returns exactly the
plaintext. -/
theorem c2_content_roundtrip (content : String) (k : AESKey) (r : RandomSource) :
    CryptoManager.decryptMessage (CryptoManager.encryptMessage content k r).1.encrypted
      (CryptoManager.encryptMessage content k r).1.iv k = .ok content := by
  simp [CryptoManager.decryptMessage, CryptoManager.encryptMessage,
    CryptoManager.arrayBufferToBase64, CryptoManager.base64ToArrayBuffer,
    aesGcmDecrypt, aesGcmEncrypt, maskFrom_maskFrom,
    textDecoderDecode_textEncoderEncode]

/-- C3: unwrapping a wrapped content key with the private key matching the
wrapping public key recovers exactly the content key. -/
theorem c3_hybrid_roundtrip (K : AESKey) (kp : RSAKeyPair) :
    CryptoManager.decryptAESKey (CryptoManager.encryptAESKey K kp.publicKey)
      kp.privateKey = .ok K := by
  simp [CryptoManager.decryptAESKey, CryptoManager.encryptAESKey,
    CryptoManager.importAESKey, CryptoManager.exportAESKey,
    CryptoManager.arrayBufferToBase64, CryptoManager.base64ToArrayBuffer,
    rsaOaepEncrypt, rsaOaepDecrypt, RSAKeyPair.publicKey, RSAKeyPair.privateKey]

/-- C8: every raw email of a fetched batch receives its own outcome (no early
termination), a malformed envelope is recovered at its own boundary leaving
the state unchanged while the rest of the batch is still processed from that
same state, the envelopes after any envelope are always processed, and a
transport error yields a clean empty cycle instead of crashing the loop. -/
theorem c8_batch_isolation :
    (∀ (s : AppState) (raws : List RawEmail),
      ((EmailManager.processBatch s raws).2).length = raws.length) ∧
    (∀ (s : AppState) (rest : List RawEmail),
      EmailManager.processBatch s (.garbage :: rest) =
        ((EmailManager.processBatch s rest).1,
         .parseError :: (EmailManager.processBatch s rest).2)) ∧
    (∀ (s : AppState) (r : RawEmail) (rest : List RawEmail),
      ((EmailManager.processBatch s (r :: rest)).2).tail =
        (EmailManager.processBatch (EmailManager.processRawEmail s r).1 rest).2) ∧
    (∀ (s : AppState) (lc : Option String) (now : String),
      EmailManager.pollCycle s lc (.error ()) now = (s, lc, [])) := by
  refine ⟨?_, ?_, ?_, ?_⟩
  · intro s raws
    induction raws generalizing s with
    | nil => rfl
    | cons r rest ih => simp [EmailManager.processBatch, ih]
  · intro s rest
    simp [EmailManager.processBatch, EmailManager.processRawEmail]
  · intro s r rest
    simp [EmailManager.processBatch]
  · intro s lc now
    rfl

/-- C9 counterexample: fetching a batch whose only envelope fails processing
still advances the checkpoint, refuting the claimed advance-only-after-
success discipline (email.js receiveMessages updates lastChecked at fetch
time, before the loop runs). -/
theorem c9_checkpoint_claim_cex : ¬ checkpointOnlyAfterSuccess := by
  intro h
  have hadv := h sEx none [.garbage] "t1" (Or.inl (by decide))
  exact absurd hadv (by decide)

/-- C9 amended: the checkpoint is advanced exactly when a fetch returns a
nonempty batch, at fetch time and regardless of the processing outcomes of
the batch; it stays unchanged on a transport error or an empty fetch (so a
failed envelope in a fetched batch is never re-delivered). -/
theorem c9_checkpoint_amended :
    (∀ (s : AppState) (lc : Option String) (now : String),
      EmailManager.pollCycle s lc (.error ()) now = (s, lc, [])) ∧
    (∀ (s : AppState) (lc : Option String) (now : String),
      EmailManager.pollCycle s lc (.ok []) now = (s, lc, [])) ∧
    (∀ (s : AppState) (lc : Option String) (now : String) (m : RawEmail)
        (rest : List RawEmail),
      (EmailManager.pollCycle s lc (.ok (m :: rest)) now).2.1 = some now) := by
  refine ⟨fun s lc now => rfl, fun s lc now => rfl, fun s lc now m rest => rfl⟩

/-- C7 counterexample: a well-formed message envelope declaring version 2.0
is not rejected with UnsupportedVersionError; it is decoded and processed
like any other envelope (the polling loop never reads the version field), and
processing it even persists a message record. -/
theorem c7_version_claim_cex : ¬ unknownVersionRejected := by
  intro h
  have hout := (h sKeyEx md20Ex rfl).1
  exact absurd hout (by decide)

/-- C7 amended: the version field of an incoming envelope is never consulted:
processing an envelope is identical for any two version strings, so future
versions are decoded best-effort instead of failing with
UnsupportedVersionError; the surviving part of the claim is that handling one
envelope, however it ends, does not halt processing of the next envelope of
the batch. -/
theorem c7_version_amended :
    (∀ (s : AppState) (md : MessageData) (v1 v2 : String),
      EmailManager.processRawEmail s (.parsed { md with version := v1 }) =
        EmailManager.processRawEmail s (.parsed { md with version := v2 })) ∧
    (∀ (s : AppState) (r : RawEmail) (rest : List RawEmail),
      ((EmailManager.processBatch s (r :: rest)).2).length = rest.length + 1) := by
  constructor
  · intro s md v1 v2
    cases md
    rfl
  · intro s r rest
    have hlen : ∀ (raws : List RawEmail) (s : AppState),
        ((EmailManager.processBatch s raws).2).length = raws.length := by
      intro raws
      induction raws with
      | nil => intro s; rfl
      | cons x xs ih => intro s; simp [EmailManager.processBatch, ih]
    simp [EmailManager.processBatch, hlen]

/-- C5: every call of encryptMessage draws its nonce as the next 12 bytes of
the cryptographic random source (so the iv field decodes to exactly 12
bytes), advances the source by exactly those 12 positions so consecutive
calls read disjoint blocks, and two consecutive calls under the same key
produce the same nonce only if the random source repeats the block — with a
non-repeating (ideal random) source the nonces differ. -/
theorem c5_fresh_nonce (c1 c2 : String) (k : AESKey) (r : RandomSource) :
    (CryptoManager.base64ToArrayBuffer (CryptoManager.encryptMessage c1 k r).1.iv).length
        = 12 ∧
    CryptoManager.base64ToArrayBuffer (CryptoManager.encryptMessage c1 k r).1.iv
        = ivBlock r ∧
    (CryptoManager.encryptMessage c1 k r).2.pos = r.pos + 12 ∧
    CryptoManager.base64ToArrayBuffer
        (CryptoManager.encryptMessage c2 k (CryptoManager.encryptMessage c1 k r).2).1.iv
      = ivBlock ⟨r.stream, r.pos + 12⟩ ∧
    (ivBlock r ≠ ivBlock ⟨r.stream, r.pos + 12⟩ →
      (CryptoManager.encryptMessage c1 k r).1.iv ≠
        (CryptoManager.encryptMessage c2 k (CryptoManager.encryptMessage c1 k r).2).1.iv) := by
  refine ⟨?_, ?_, ?_, ?_, ?_⟩
  · simp [CryptoManager.encryptMessage, CryptoManager.base64ToArrayBuffer,
      CryptoManager.arrayBufferToBase64, getRandomValues]
  · rfl
  · rfl
  · rfl
  · intro hne heq
    exact hne (congrArg B64.data heq)

/-- C5 witness: a concrete random source whose first two 12-byte blocks
differ, with the two consecutive encryptMessage calls producing distinct
12-byte nonces read off the source. -/
theorem c5_fresh_nonce_witness :
    (CryptoManager.base64ToArrayBuffer
        (CryptoManager.encryptMessage "a" kEx rEx).1.iv).length = 12 ∧
    CryptoManager.base64ToArrayBuffer (CryptoManager.encryptMessage "a" kEx rEx).1.iv
        = ivBlock rEx ∧
    (CryptoManager.encryptMessage "a" kEx rEx).2.pos = rEx.pos + 12 ∧
    (CryptoManager.encryptMessage "a" kEx rEx).1.iv ≠
      (CryptoManager.encryptMessage "b" kEx
        (CryptoManager.encryptMessage "a" kEx rEx).2).1.iv := by
  have h := c5_fresh_nonce "a" "b" kEx rEx
  exact ⟨h.1, h.2.1, h.2.2.1, h.2.2.2.2 (by decide)⟩

/-- C10: for every incoming envelope whose content key unwraps and whose
content decrypts successfully (the text branch of onMessageReceived),
onMessageReceived saves the record, invokes the UI callback, and then fails
with a ReferenceError instead of returning normally, because its return
statement reads the undeclared identifier decrypted. -/
theorem c10_success_path_reference_error (s : AppState) (md : MessageData)
    (priv : RSAPrivateKey) (ek : B64 RSACipher) (ec : B64 GCMCipher)
    (iv : B64 (List Nat)) (aesKey : AESKey) (content : String)
    (hpriv : s.privateKey = some priv)
    (hek : md.encrypted_key = some ek)
    (hec : md.encrypted_content = some ec)
    (hiv : md.iv = some iv)
    (htype : md.type = none ∨ md.type = some "text")
    (hunwrap : CryptoManager.decryptAESKey ek priv = .ok aesKey)
    (hdec : CryptoManager.decryptMessage ec iv aesKey = .ok content) :
    WhisperApp.onMessageReceived s md =
      ({ s with
          messages := s.messages ++ [WhisperApp.incomingRecord md "text" (some content)],
          callbackEvents :=
            s.callbackEvents ++ [WhisperApp.incomingEvent md "text" (some content)] },
       .error .referenceError) := by
  unfold WhisperApp.onMessageReceived
  have ht : md.type.getD "text" = "text" := by
    rcases htype with h | h <;> simp [h]
  simp [hpriv, hek, hunwrap, hec, hiv, hdec, ht, WhisperApp.deliver]

/-- C10 witness: a concrete well-formed incoming text envelope on which
onMessageReceived persists the record, fires the callback, and ends in the
ReferenceError. -/
theorem c10_success_path_reference_error_witness :
    WhisperApp.onMessageReceived sKeyEx mdTextOkEx =
      ({ sKeyEx with
          messages := sKeyEx.messages ++
            [WhisperApp.incomingRecord mdTextOkEx "text" (some "hi")],
          callbackEvents := sKeyEx.callbackEvents ++
            [WhisperApp.incomingEvent mdTextOkEx "text" (some "hi")] },
       .error .referenceError) := by
  exact c10_success_path_reference_error sKeyEx mdTextOkEx privEx ekEx
    (CryptoManager.arrayBufferToBase64 cEx) (CryptoManager.arrayBufferToBase64 ivEx)
    kEx "hi" rfl rfl rfl rfl (Or.inl rfl) (by decide) (by decide)

/-- C4 counterexample: an envelope exactly as the wire delivers it (kind tag
message) with one ciphertext byte corrupted is not rejected with
DecryptionError by receive — content decryption is skipped for that kind tag,
the corrupted envelope is persisted, and processing ends in the
ReferenceError instead. -/
theorem c4_tamper_claim_cex : ¬ receiveRejectsTampering := by
  intro h
  have hres := h sKeyEx mdWireEx kEx ivEx dataEx 0 0 rfl (by decide)
  exact absurd hres.1 (by decide)

/-- C4 amended: decryptMessage detects any alteration of the ciphertext body
or of the authentication tag and fails with DecryptionError, never returning
altered plaintext; on the text branch of receive a content decryption failure
propagates as DecryptionError with nothing persisted and no callback; but an
envelope carrying the kind tag message — the shape the wire actually
delivers — skips content decryption entirely: it is persisted with null
content and receive ends with a ReferenceError rather than a
DecryptionError. -/
theorem c4_tamper_amended :
    (∀ (k : AESKey) (iv data : List Nat) (i b : Nat),
      (aesGcmEncrypt k iv data).body.set i b ≠ (aesGcmEncrypt k iv data).body →
      CryptoManager.decryptMessage
        (CryptoManager.arrayBufferToBase64
          (GCMCipher.mk ((aesGcmEncrypt k iv data).body.set i b)
            (aesGcmEncrypt k iv data).tag))
        (CryptoManager.arrayBufferToBase64 iv) k = .error .decryptionError) ∧
    (∀ (k : AESKey) (iv data : List Nat) (tagAlt : GCMTag),
      tagAlt ≠ (aesGcmEncrypt k iv data).tag →
      CryptoManager.decryptMessage
        (CryptoManager.arrayBufferToBase64
          (GCMCipher.mk (aesGcmEncrypt k iv data).body tagAlt))
        (CryptoManager.arrayBufferToBase64 iv) k = .error .decryptionError) ∧
    (∀ (s : AppState) (md : MessageData) (priv : RSAPrivateKey)
        (ek : B64 RSACipher) (ec : B64 GCMCipher) (iv : B64 (List Nat))
        (aesKey : AESKey),
      s.privateKey = some priv →
      md.encrypted_key = some ek →
      md.encrypted_content = some ec →
      md.iv = some iv →
      (md.type = none ∨ md.type = some "text") →
      CryptoManager.decryptAESKey ek priv = .ok aesKey →
      CryptoManager.decryptMessage ec iv aesKey = .error .decryptionError →
      WhisperApp.onMessageReceived s md = (s, .error .decryptionError)) ∧
    (∀ (s : AppState) (md : MessageData) (priv : RSAPrivateKey)
        (ek : B64 RSACipher) (aesKey : AESKey),
      s.privateKey = some priv →
      md.encrypted_key = some ek →
      md.type = some "message" →
      CryptoManager.decryptAESKey ek priv = .ok aesKey →
      WhisperApp.onMessageReceived s md =
        ({ s with
            messages := s.messages ++ [WhisperApp.incomingRecord md "message" none],
            callbackEvents :=
              s.callbackEvents ++ [WhisperApp.incomingEvent md "message" none] },
         .error .referenceError)) := by
  refine ⟨?_, ?_, ?_, ?_⟩
  · intro k iv data i b hne
    have htag : (aesGcmEncrypt k iv data).tag ≠
        (⟨k.raw, iv, (aesGcmEncrypt k iv data).body.set i b⟩ : GCMTag) :=
      fun hcontra => hne (congrArg GCMTag.body hcontra).symm
    simp [CryptoManager.decryptMessage, CryptoManager.arrayBufferToBase64,
      CryptoManager.base64ToArrayBuffer, aesGcmDecrypt, htag]
  · intro k iv data tagAlt hne
    have htag : tagAlt ≠ (⟨k.raw, iv, (aesGcmEncrypt k iv data).body⟩ : GCMTag) := by
      simpa [aesGcmEncrypt] using hne
    simp [CryptoManager.decryptMessage, CryptoManager.arrayBufferToBase64,
      CryptoManager.base64ToArrayBuffer, aesGcmDecrypt, htag]
  · intro s md priv ek ec iv aesKey hpriv hek hec hiv htype hunwrap hdec
    unfold WhisperApp.onMessageReceived
    have ht : md.type.getD "text" = "text" := by
      rcases htype with h | h <;> simp [h]
    simp [hpriv, hek, hunwrap, hec, hiv, hdec, ht]
  · intro s md priv ek aesKey hpriv hek htype hunwrap
    unfold WhisperApp.onMessageReceived
    have ht : md.type.getD "text" = "message" := by simp [htype]
    simp [hpriv, hek, hunwrap, ht, WhisperApp.deliver]

/-- C4 witness: the concrete one-byte corruption of a concrete valid
ciphertext is rejected by decryptMessage with DecryptionError; the concrete
corrupted text-branch envelope is rejected by receive with nothing persisted;
and the same corrupted envelope under the wire kind tag is persisted and ends
in the ReferenceError. -/
theorem c4_tamper_amended_witness :
    CryptoManager.decryptMessage
        (CryptoManager.arrayBufferToBase64
          (GCMCipher.mk (cEx.body.set 0 0) cEx.tag))
        (CryptoManager.arrayBufferToBase64 ivEx) kEx = .error .decryptionError ∧
    WhisperApp.onMessageReceived sKeyEx mdTextCorruptEx =
      (sKeyEx, .error .decryptionError) ∧
    WhisperApp.onMessageReceived sKeyEx mdWireEx =
      ({ sKeyEx with
          messages := sKeyEx.messages ++
            [WhisperApp.incomingRecord mdWireEx "message" none],
          callbackEvents := sKeyEx.callbackEvents ++
            [WhisperApp.incomingEvent mdWireEx "message" none] },
       .error .referenceError) := by
  refine ⟨c4_tamper_amended.1 kEx ivEx dataEx 0 0 (by decide), ?_, ?_⟩
  · exact c4_tamper_amended.2.2.1 sKeyEx mdTextCorruptEx privEx ekEx
      (CryptoManager.arrayBufferToBase64 corruptEx)
      (CryptoManager.arrayBufferToBase64 ivEx) kEx rfl rfl rfl rfl (Or.inl rfl)
      (by decide) (by decide)
  · exact c4_tamper_amended.2.2.2 sKeyEx mdWireEx privEx ekEx kEx rfl rfl rfl
      (by decide)

theorem storeGet_storePut_ne {α : Type} (ks : List (String × α)) (e1 e2 : String)
    (v : α) (h : e2 ≠ e1) : storeGet (storePut ks e2 v) e1 = storeGet ks e1 := by
  induction ks with
  | nil => simp [storePut, storeGet, h]
  | cons kv rest ih =>
    obtain ⟨k, w⟩ := kv
    by_cases hk : k = e2
    · subst hk
      simp [storePut, storeGet, h]
    · simp [storePut, storeGet, hk, ih]

theorem onMessageReceived_preserves (s : AppState) (md : MessageData) :
    ((WhisperApp.onMessageReceived s md).1).config = s.config ∧
    ((WhisperApp.onMessageReceived s md).1).isExchangeComplete = s.isExchangeComplete ∧
    ((WhisperApp.onMessageReceived s md).1).storedKeys = s.storedKeys := by
  unfold WhisperApp.onMessageReceived WhisperApp.deliver
  dsimp only
  refine ⟨?_, ?_, ?_⟩ <;> (repeat' split) <;> rfl

theorem noTrust_step (cfg : Config) (hne : cfg.myEmail ≠ cfg.peerEmail)
    (s : AppState) (op : AppOp) (hop : isImportOp op = false)
    (h : NoTrust cfg s) : NoTrust cfg (appStep s op) := by
  obtain ⟨hc, hx, hk⟩ := h
  cases op with
  | generateKeys now =>
    have hput : ∀ v : B64 (List Nat),
        storeGet (storePut s.storedKeys cfg.myEmail v) cfg.peerEmail = none := by
      intro v
      rw [storeGet_storePut_ne _ _ _ _ hne, hk]
    refine ⟨?_, ?_, ?_⟩ <;>
      simp [appStep, WhisperApp.generateKeyPair, WhisperApp.sendPublicKey, hc, hx, hput]
  | sendPubKey now =>
    cases hsp : s.selfPublicKey with
    | none => simpa [appStep, WhisperApp.sendPublicKey, hsp] using ⟨hc, hx, hk⟩
    | some pub =>
      have hput : ∀ v : B64 (List Nat),
          storeGet (storePut s.storedKeys cfg.myEmail v) cfg.peerEmail = none := by
        intro v
        rw [storeGet_storePut_ne _ _ _ _ hne, hk]
      refine ⟨?_, ?_, ?_⟩ <;>
        simp [appStep, WhisperApp.sendPublicKey, hsp, hc, hx, hput]
  | doInitKeys =>
    have hpeer : storeGet s.storedKeys s.config.peerEmail = none := by rw [hc]; exact hk
    simpa [appStep, WhisperApp.initKeys, hpeer] using ⟨hc, hx, hk⟩
  | importPeer pk => simp [isImportOp] at hop
  | sendMsg content now =>
    simpa [appStep, WhisperApp.sendMessage, hx] using ⟨hc, hx, hk⟩
  | pollEnvelope raw =>
    cases raw with
    | garbage => simpa [appStep, EmailManager.processRawEmail] using ⟨hc, hx, hk⟩
    | parsed md =>
      by_cases ht : md.type = some "message"
      · have hp := onMessageReceived_preserves s md
        rcases hr : WhisperApp.onMessageReceived s md with ⟨s2, res⟩
        rw [hr] at hp
        have hstep : appStep s (.pollEnvelope (.parsed md)) = s2 := by
          cases res <;> simp [appStep, EmailManager.processRawEmail, ht, hr]
        rw [hstep]
        refine ⟨?_, ?_, ?_⟩
        · rw [hp.1]; exact hc
        · rw [hp.2.1]; exact hx
        · rw [hp.2.2]; exact hk
      · simpa [appStep, EmailManager.processRawEmail, ht] using ⟨hc, hx, hk⟩

theorem noTrust_run (cfg : Config) (hne : cfg.myEmail ≠ cfg.peerEmail)
    (ops : List AppOp) :
    ∀ s, NoTrust cfg s → (∀ op ∈ ops, isImportOp op = false) →
      NoTrust cfg (runOps s ops) := by
  induction ops with
  | nil => intro s h _; exact h
  | cons op rest ih =>
    intro s h hops
    exact ih _ (noTrust_step cfg hne s op (hops op (by simp)) h)
      (fun o ho => hops o (by simp [ho]))

/-- C1: a send attempted before the exchange is complete fails with
ExchangeIncompleteError and leaves the state entirely unchanged — in
particular the random source is not consumed (no cryptographic operation) and
no envelope is handed to the transport (nothing, encrypted or not, is sent);
receiving any envelope that is not of kind message — in particular a
public-key announcement — is a no-op for the state; and from a fresh install,
no sequence of operations that avoids the explicit importPeerPublicKey call
ever reaches the trusted (exchange-complete) state. -/
theorem c1_send_gated_by_trust :
    (∀ (s : AppState) (content now : String),
      s.isExchangeComplete = false →
      WhisperApp.sendMessage s content now = (s, .error .exchangeIncompleteError)) ∧
    (∀ (s : AppState) (md : MessageData),
      md.type ≠ some "message" →
      EmailManager.processRawEmail s (.parsed md) = (s, .skipped)) ∧
    (∀ (cfg : Config) (stream : Nat → Nat) (ops : List AppOp),
      cfg.myEmail ≠ cfg.peerEmail →
      (∀ op ∈ ops, isImportOp op = false) →
      (runOps (firstRunState cfg stream) ops).isExchangeComplete = false) := by
  refine ⟨?_, ?_, ?_⟩
  · intro s content now h
    simp [WhisperApp.sendMessage, h]
  · intro s md h
    simp [EmailManager.processRawEmail, h]
  · intro cfg stream ops hne hops
    exact (noTrust_run cfg hne ops (firstRunState cfg stream) ⟨rfl, rfl, rfl⟩ hops).2.1

/-- C1 witness: on the concrete fresh-install state a send fails with
ExchangeIncompleteError and changes nothing, a concrete public-key
announcement envelope is ignored by the polling loop, and a concrete
run of import-free operations (key generation, announcement, an attempted
send, a received announcement, a malformed envelope) ends with the exchange
still incomplete. -/
theorem c1_send_gated_by_trust_witness :
    WhisperApp.sendMessage sKeyEx "hello" "t1" =
      (sKeyEx, .error .exchangeIncompleteError) ∧
    EmailManager.processRawEmail sKeyEx (.parsed mdPkEx) = (sKeyEx, .skipped) ∧
    (runOps (firstRunState cfgEx zeroStream) opsEx).isExchangeComplete = false := by
  refine ⟨c1_send_gated_by_trust.1 sKeyEx "hello" "t1" rfl,
    c1_send_gated_by_trust.2.1 sKeyEx mdPkEx (by decide),
    c1_send_gated_by_trust.2.2 cfgEx zeroStream opsEx (by decide) (by decide)⟩

theorem hexCharVal_hexDigitChar (n : Nat) (h : n < 16) :
    CryptoManager.hexCharVal (CryptoManager.hexDigitChar n) = n := by
  interval_cases n <;> decide

theorem hexDigitChar_ne_colon (n : Nat) (h : n < 16) :
    CryptoManager.hexDigitChar n ≠ ':' := by
  interval_cases n <;> decide

theorem hexPairs_bytesToHex (bs : List Nat) (h : ∀ x ∈ bs, x < 256) :
    CryptoManager.hexPairsToBytes (CryptoManager.bytesToHex bs) = bs := by
  induction bs with
  | nil => rfl
  | cons b rest ih =>
    have hb : b < 256 := h b (by simp)
    have hdiv : b / 16 < 16 := by omega
    have hmod : b % 16 < 16 := Nat.mod_lt _ (by norm_num)
    have hrest : CryptoManager.hexPairsToBytes
        ((rest.map CryptoManager.byteToHex).flatten) = rest := by
      simpa [CryptoManager.bytesToHex] using ih (fun x hx => h x (by simp [hx]))
    simp only [CryptoManager.bytesToHex, List.map_cons, List.flatten_cons,
      CryptoManager.byteToHex, List.cons_append, List.nil_append,
      CryptoManager.hexPairsToBytes]
    rw [hexCharVal_hexDigitChar _ hdiv, hexCharVal_hexDigitChar _ hmod,
      show 16 * (b / 16) + b % 16 = b from by omega]
    simpa using hrest

theorem chunkFour_flatten (cs : List Char) :
    (CryptoManager.chunkFour cs).flatten = cs := by
  induction cs using CryptoManager.chunkFour.induct with
  | case1 => rfl
  | case2 a => rfl
  | case3 a b => rfl
  | case4 a b c => rfl
  | case5 a b c d rest ih => simp [CryptoManager.chunkFour, ih]

theorem joinColon_filter (gs : List (List Char))
    (h : ∀ g ∈ gs, ∀ c ∈ g, c ≠ ':') :
    (CryptoManager.joinColon gs).filter (fun c => c != ':') = gs.flatten := by
  induction gs with
  | nil => rfl
  | cons g rest ih =>
    have hg : ∀ c ∈ g, (c != ':') = true := by
      intro c hc
      simpa [bne_iff_ne] using h g (by simp) c hc
    cases rest with
    | nil =>
      simp [CryptoManager.joinColon, List.filter_eq_self.mpr hg]
    | cons g2 rest2 =>
      have ih2 := ih (fun g' hg' c hc => h g' (by simp [hg']) c hc)
      simp [CryptoManager.joinColon, List.filter_append, List.filter_cons,
        List.filter_eq_self.mpr hg, ih2]

/-- C6: generateKeyFingerprint is a pure function of the canonical export
bytes — it hex-encodes the 256-bit digest of those bytes and groups the hex
into blocks joined by colons (stripping the colons recovers exactly the hex
encoding of the digest) — and, under the collision-freeness idealization of
the fixed hash, two keys have equal fingerprints iff their canonical export
bytes are identical. -/
theorem c6_fingerprint_pure_injective (digest : List Nat → List Nat)
    (k1 k2 : RSAPublicKey)
    (h1 : ∀ x ∈ digest k1.spki, x < 256)
    (h2 : ∀ x ∈ digest k2.spki, x < 256)
    (hinj : digest k1.spki = digest k2.spki → k1.spki = k2.spki) :
    (CryptoManager.generateKeyFingerprint digest k1 =
        CryptoManager.generateKeyFingerprint digest k2 ↔ k1.spki = k2.spki) ∧
    (CryptoManager.generateKeyFingerprint digest k1).data.filter (fun c => c != ':')
        = CryptoManager.bytesToHex (digest k1.spki) := by
  have hchars : ∀ (bs : List Nat), (∀ x ∈ bs, x < 256) →
      ∀ g ∈ CryptoManager.chunkFour (CryptoManager.bytesToHex bs), ∀ c ∈ g, c ≠ ':' := by
    intro bs hbs g hg c hc
    have hmem : c ∈ CryptoManager.bytesToHex bs := by
      have := List.mem_flatten.mpr ⟨g, hg, hc⟩
      rwa [chunkFour_flatten] at this
    have hex : ∃ b ∈ bs, c ∈ CryptoManager.byteToHex b := by
      simpa [CryptoManager.bytesToHex, List.mem_flatten, List.mem_map] using hmem
    rcases hex with ⟨b, hb, hcb⟩
    have hblt := hbs b hb
    have hcb2 : c = CryptoManager.hexDigitChar (b / 16) ∨
        c = CryptoManager.hexDigitChar (b % 16) := by
      simpa [CryptoManager.byteToHex] using hcb
    rcases hcb2 with hceq1 | hceq
    · subst hceq1
      exact hexDigitChar_ne_colon _ (by omega)
    · subst hceq
      exact hexDigitChar_ne_colon _ (Nat.mod_lt _ (by norm_num))
  have key : ∀ (pk : RSAPublicKey), (∀ x ∈ digest pk.spki, x < 256) →
      (CryptoManager.generateKeyFingerprint digest pk).data.filter (fun c => c != ':')
        = CryptoManager.bytesToHex (digest pk.spki) := by
    intro pk hx
    show (CryptoManager.joinColon
        (CryptoManager.chunkFour (CryptoManager.bytesToHex (digest pk.spki)))).filter
        (fun c => c != ':') = CryptoManager.bytesToHex (digest pk.spki)
    rw [joinColon_filter _ (hchars _ hx), chunkFour_flatten]
  refine ⟨⟨?_, ?_⟩, key k1 h1⟩
  · intro hfp
    apply hinj
    have hdata := congrArg String.data hfp
    have hhex : CryptoManager.bytesToHex (digest k1.spki)
        = CryptoManager.bytesToHex (digest k2.spki) := by
      rw [← key k1 h1, ← key k2 h2]
      exact congrArg (List.filter (fun c => c != ':')) hdata
    have hdg := congrArg CryptoManager.hexPairsToBytes hhex
    rwa [hexPairs_bytesToHex _ h1, hexPairs_bytesToHex _ h2] at hdg
  · intro hspki
    unfold CryptoManager.generateKeyFingerprint
    rw [hspki]

/-- C6 witness: a concrete digest function and two concrete keys with
distinct export bytes, whose fingerprints differ accordingly, with the
colon-stripped fingerprint equal to the hex encoding of the digest. -/
theorem c6_fingerprint_witness :
    ((CryptoManager.generateKeyFingerprint (fun bs => bs) ⟨[0, 17]⟩ =
        CryptoManager.generateKeyFingerprint (fun bs => bs) ⟨[255]⟩) ↔
      ([0, 17] : List Nat) = [255]) ∧
    (CryptoManager.generateKeyFingerprint (fun bs => bs) ⟨[0, 17]⟩).data.filter
        (fun c => c != ':') = CryptoManager.bytesToHex [0, 17] :=
  c6_fingerprint_pure_injective (fun bs => bs) ⟨[0, 17]⟩ ⟨[255]⟩ (by decide)
    (by decide) (fun h => h)

end Whisper
